import Mathlib

/-
  Shallow embedding of the capture-the-flag agent implementation
  (StudentCaptureAgent, AttackerAgent, GuardAgent and their helpers).
  Distances and feature values are modelled as rationals: every numeric
  constant in the source (1.0, 3.0, 12.0, 20.0, 2.5, 9999.0, ...) and
  every operation applied to them (min, comparison, counting) is exact
  at these magnitudes, so the rational model computes the same values
  bit-for-bit as the source arithmetic.
  The external precomputed distance table is modelled as a partial map
  from position pairs to rational distances; get_distance_default
  returns the supplied default when no entry exists, as the external
  contract specifies.
-/

namespace Capture

/-- MAX_DIST sentinel from the module top level. -/
def MAX_DIST : ℚ := 9999

/-- Board position: an ordered (row, col) pair. -/
structure Position where
  row : Int
  col : Int
deriving DecidableEq, Repr

/-- The external board: width, height, wall test, initial positions. -/
structure Board where
  width : Nat
  height : Nat
  is_wall : Position → Bool
  get_agent_initial_position : Nat → Position

/-- The external precomputed distance table: a partial map on position
pairs; none models an unknown/unreachable pair. -/
abbrev DistTable := Position → Position → Option ℚ

/-- External contract: for unknown pairs return the default, otherwise
the stored (true shortest-path) distance. -/
def get_distance_default (table : DistTable) (s e : Position) (default : ℚ) : ℚ :=
  (table s e).getD default

/-- StudentCaptureAgent._distance: default when either endpoint is
undefined, otherwise the table lookup with that default. -/
def _distance (table : DistTable) (start fin : Option Position)
    (default : ℚ := MAX_DIST) : ℚ :=
  match start, fin with
  | some s, some e => get_distance_default table s e default
  | _, _ => default

/-- StudentCaptureAgent._closest_distance: default when start is
undefined; otherwise the fold of min over all targets, seeded at the
default. -/
def _closest_distance (table : DistTable) (start : Option Position)
    (targets : List Position) (default : ℚ := MAX_DIST) : ℚ :=
  match start with
  | none => default
  | some s =>
      targets.foldl (fun best target => min best (_distance table (some s) (some target) default))
        default

/-- The frontier column chosen by StudentCaptureAgent._build_frontier:
(width // 2) - 1, overridden to width // 2 when the initial column lies
in the right half under true division (initial_col >= width / 2). -/
def frontier_col (board : Board) (initial_position : Option Position) : Int :=
  match initial_position with
  | some ip =>
      if (ip.col : ℚ) ≥ (board.width : ℚ) / 2 then ((board.width / 2 : Nat) : Int)
      else ((board.width / 2 : Nat) : Int) - 1
  | none => ((board.width / 2 : Nat) : Int) - 1

/-- The row-order enumeration of non-wall cells of a column, as done by
the loop in StudentCaptureAgent._build_frontier. -/
def column_cells (board : Board) (c : Int) : List Position :=
  (List.range board.height).filterMap (fun row =>
    let position := Position.mk (row : Int) c
    if board.is_wall position then none else some position)

/-- StudentCaptureAgent._build_frontier: the non-wall cells of the
chosen frontier column; if that column is fully walled and the initial
position is known, the singleton holding the initial position. -/
def _build_frontier (board : Board) (initial_position : Option Position) : List Position :=
  let frontier := column_cells board (frontier_col board initial_position)
  if frontier = [] then
    match initial_position with
    | some ip => [ip]
    | none => []
  else frontier

/-- The per-agent state cached by game_start. -/
structure AgentCache where
  initial_position : Option Position
  frontier : List Position

/-- StudentCaptureAgent.game_start: record the agent's initial position
from the board and build the frontier once. -/
def game_start (board : Board) (agent_index : Nat) : AgentCache :=
  let ip := board.get_agent_initial_position agent_index
  { initial_position := some ip, frontier := _build_frontier board (some ip) }

/-- StudentCaptureAgent._distance_to_frontier: 0.0 when the position is
undefined or the frontier is empty, otherwise the minimum over frontier
entries of _distance with its default (MAX_DIST). -/
def _distance_to_frontier (table : DistTable) (frontier : List Position)
    (position : Option Position) : ℚ :=
  match position, frontier with
  | none, _ => 0
  | some _, [] => 0
  | some p, e :: es =>
      es.foldl (fun best entry => min best (_distance table (some p) (some entry)))
        (_distance table (some p) (some e))

/-- Game actions (pacai.core.action); STOP is the null action. -/
inductive Action where
  | STOP
  | NORTH
  | SOUTH
  | EAST
  | WEST
deriving DecidableEq, Repr

/-- The external game state, restricted to the queries the two feature
extractors make for the acting agent: normalized score, ghost-form flag,
action history (most recent last), reverse-action map, current position
(none when not observable), visible food, visible non-scared opponent
positions (the dict values), visible invader positions (the dict
values). -/
structure GameState where
  normalized_score : ℚ
  is_ghost : Bool
  agent_actions : List Action
  reverse_action : Action → Action
  agent_position : Option Position
  food : List Position
  nonscared_opponent_positions : List Position
  invader_positions : List Position

/-- FeatureDict: a string-keyed numeric mapping. Modelled as an
association list; set overwrites any previous binding of the key. -/
abbrev FeatureDict := List (String × ℚ)

/-- Dict assignment: bind the key, removing any previous binding. -/
def FeatureDict.set (d : FeatureDict) (k : String) (v : ℚ) : FeatureDict :=
  (k, v) :: d.filter (fun p => p.1 != k)

/-- Python float(bool). -/
def boolToFloat (b : Bool) : ℚ := if b then 1 else 0

/-- The second-most-recent action, agent_actions[-2] in the source;
only consulted under the length > 1 guard. -/
def secondLast (l : List Action) : Option Action := l.get? (l.length - 2)

/-- AttackerAgent weights installed by __init__ via weights.update. -/
def attacker_weights : FeatureDict :=
  [("bias", 1), ("score", 150), ("distance_to_food", -2.5), ("distance_to_ghost", 1.8),
   ("ghost_near", -200), ("stopped", -80), ("reverse", -4), ("on_home_side", -10)]

/-- AttackerAgent.compute_features. -/
def AttackerAgent.compute_features (table : DistTable) (state : GameState)
    (action : Action) : FeatureDict :=
  let features : FeatureDict := []
  let features := features.set "bias" 1
  let features := features.set "score" state.normalized_score
  let features := features.set "stopped" (boolToFloat (decide (action = Action.STOP)))
  let features := features.set "on_home_side" (boolToFloat state.is_ghost)
  let features := features.set "reverse" 0
  let agent_actions := state.agent_actions
  let features :=
    if agent_actions.length > 1 then
      features.set "reverse"
        (boolToFloat (decide (action = state.reverse_action ((secondLast agent_actions).getD Action.STOP))))
    else features
  match state.agent_position with
  | none => features
  | some position =>
      let features :=
        if state.food.length > 0 then
          let food_distance := _closest_distance table (some position) state.food MAX_DIST
          features.set "distance_to_food" (min food_distance 20)
        else
          features.set "distance_to_food" 0
      let ghosts := state.nonscared_opponent_positions
      let ghost_distance := _closest_distance table (some position) ghosts MAX_DIST
      let capped_ghost_distance := min ghost_distance 12
      let features := features.set "distance_to_ghost" capped_ghost_distance
      let features := features.set "ghost_near" (boolToFloat (decide (ghost_distance ≤ 3)))
      features

/-- GuardAgent weights installed by __init__ via weights.update. -/
def guard_weights : FeatureDict :=
  [("bias", 1), ("on_home_side", 60), ("stopped", -60), ("reverse", -3),
   ("num_invaders", -1200), ("distance_to_invader", -25), ("frontier_distance", -2.5)]

/-- GuardAgent.compute_features; the cached frontier is passed in. -/
def GuardAgent.compute_features (table : DistTable) (frontier : List Position)
    (state : GameState) (action : Action) : FeatureDict :=
  let features : FeatureDict := []
  let features := features.set "bias" 1
  let features := features.set "stopped" (boolToFloat (decide (action = Action.STOP)))
  let features := features.set "on_home_side" (boolToFloat state.is_ghost)
  let features := features.set "reverse" 0
  let agent_actions := state.agent_actions
  let features :=
    if agent_actions.length > 1 then
      features.set "reverse"
        (boolToFloat (decide (action = state.reverse_action ((secondLast agent_actions).getD Action.STOP))))
    else features
  match state.agent_position with
  | none => features
  | some position =>
      let invaders := state.invader_positions
      let features := features.set "num_invaders" (invaders.length : ℚ)
      if invaders.length > 0 then
        let distance := _closest_distance table (some position) invaders MAX_DIST
        let features := features.set "distance_to_invader" distance
        features.set "frontier_distance" 0
      else
        let features := features.set "distance_to_invader" 0
        features.set "frontier_distance" (_distance_to_frontier table frontier (some position))

/-
  Concrete sample objects, used by the witness theorems.
-/

/-- Sample position (0, 0). -/
def pos00 : Position := ⟨0, 0⟩

/-- Sample position (0, 2). -/
def pos02 : Position := ⟨0, 2⟩

/-- Sample position (0, 3). -/
def pos03 : Position := ⟨0, 3⟩

/-- Sample position (0, 7). -/
def pos07 : Position := ⟨0, 7⟩

/-- A concrete distance table: Manhattan distance between cells
(non-negative, defined everywhere). -/
def manhattanTable : DistTable :=
  fun s e => some ((((s.row - e.row).natAbs + (s.col - e.col).natAbs : Nat)) : ℚ)

/-- A concrete 10-wide board with no walls. -/
def sampleBoard10 : Board :=
  { width := 10, height := 3, is_wall := fun _ => false,
    get_agent_initial_position := fun _ => pos02 }

/-- A concrete game state whose agent position is undefined. -/
def stateNoPos : GameState :=
  { normalized_score := 0, is_ghost := false, agent_actions := [],
    reverse_action := id, agent_position := none, food := [],
    nonscared_opponent_positions := [], invader_positions := [] }

/-- A concrete game state with a defined position, one food, one
non-scared opponent and one invader. -/
def stateAt00 : GameState :=
  { normalized_score := 0, is_ghost := false, agent_actions := [],
    reverse_action := id, agent_position := some pos00, food := [pos03],
    nonscared_opponent_positions := [pos02], invader_positions := [pos07] }

/-- A concrete game state with a defined position and nothing visible. -/
def stateAt00Empty : GameState :=
  { normalized_score := 0, is_ghost := false, agent_actions := [],
    reverse_action := id, agent_position := some pos00, food := [],
    nonscared_opponent_positions := [], invader_positions := [] }

/-
  Helper lemmas about the fold-of-min pattern used by
  _closest_distance and _distance_to_frontier.
-/

theorem foldl_min_le_init {α : Type} (f : α → ℚ) :
    ∀ (l : List α) (b : ℚ), l.foldl (fun best x => min best (f x)) b ≤ b := by
  intro l
  induction l with
  | nil => intro b; simp
  | cons x xs ih =>
      intro b
      simp only [List.foldl_cons]
      exact le_trans (ih (min b (f x))) (min_le_left _ _)

theorem foldl_min_le_mem {α : Type} (f : α → ℚ) :
    ∀ (l : List α) (b : ℚ) (x : α), x ∈ l →
      l.foldl (fun best y => min best (f y)) b ≤ f x := by
  intro l
  induction l with
  | nil => intro b x hx; cases hx
  | cons y ys ih =>
      intro b x hx
      simp only [List.foldl_cons]
      rcases List.mem_cons.mp hx with h1 | h1
      · subst h1
        exact le_trans (foldl_min_le_init f ys (min b (f x))) (min_le_right _ _)
      · exact ih _ x h1

theorem foldl_min_cases {α : Type} (f : α → ℚ) :
    ∀ (l : List α) (b : ℚ),
      l.foldl (fun best y => min best (f y)) b = b ∨
        ∃ x ∈ l, l.foldl (fun best y => min best (f y)) b = f x := by
  intro l
  induction l with
  | nil => intro b; left; rfl
  | cons y ys ih =>
      intro b
      simp only [List.foldl_cons]
      rcases ih (min b (f y)) with h | ⟨x, hx, heq⟩
      · rw [h]
        rcases min_cases b (f y) with ⟨h2, _⟩ | ⟨h2, _⟩
        · left; exact h2
        · right; exact ⟨y, List.mem_cons_self y ys, h2⟩
      · right; exact ⟨x, List.mem_cons_of_mem _ hx, heq⟩

theorem foldl_min_nonneg {α : Type} (f : α → ℚ) (l : List α) (b : ℚ)
    (hb : 0 ≤ b) (hf : ∀ x ∈ l, 0 ≤ f x) :
    0 ≤ l.foldl (fun best y => min best (f y)) b := by
  rcases foldl_min_cases f l b with h | ⟨x, hx, h⟩
  · rw [h]; exact hb
  · rw [h]; exact hf x hx

theorem closest_distance_nonneg (table : DistTable) (p : Position)
    (targets : List Position) (d : ℚ) (hd : 0 ≤ d)
    (hnn : ∀ s e q, table s e = some q → 0 ≤ q) :
    0 ≤ _closest_distance table (some p) targets d := by
  unfold _closest_distance
  apply foldl_min_nonneg _ _ _ hd
  intro x _
  unfold _distance get_distance_default
  cases ht : table p x with
  | none => simpa [ht] using hd
  | some q => simpa [ht] using hnn p x q ht

theorem build_frontier_some_ne_nil (board : Board) (ip : Position) :
    _build_frontier board (some ip) ≠ [] := by
  unfold _build_frontier
  by_cases h : column_cells board (frontier_col board (some ip)) = [] <;> simp [h]

theorem column_cells_col (board : Board) (c : Int) (q : Position)
    (hq : q ∈ column_cells board c) : q.col = c := by
  unfold column_cells at hq
  rcases List.mem_filterMap.mp hq with ⟨row, _, h2⟩
  by_cases hw : board.is_wall (Position.mk (row : Int) c)
  · simp [hw] at h2
  · simp [hw] at h2
    rw [← h2]

/-
  Claim theorems.
-/

/-- C8: distance returns the supplied default whenever either endpoint
is undefined (for every table, so without consulting it), and
closest_distance returns the supplied default whenever the start is
undefined or the target collection is empty. -/
theorem C8_undefined_inputs_return_default (table : DistTable) (s e : Option Position)
    (p : Position) (targets : List Position) (d : ℚ) :
    _distance table none e d = d ∧
    _distance table s none d = d ∧
    _closest_distance table none targets d = d ∧
    _closest_distance table (some p) [] d = d := by
  refine ⟨rfl, ?_, rfl, rfl⟩
  cases s <;> rfl

/-- C7: distance_to_frontier returns 0.0 when the position is undefined
or the frontier is empty; otherwise it is the minimum over frontier
cells of the distance computed with default MAX_DIST: it is attained at
some frontier cell and is a lower bound of all cell distances. -/
theorem C7_distance_to_frontier_spec (table : DistTable) (frontier : List Position)
    (position : Option Position) :
    (position = none → _distance_to_frontier table frontier position = 0) ∧
    (frontier = [] → _distance_to_frontier table frontier position = 0) ∧
    (∀ p, position = some p → frontier ≠ [] →
      (∃ c ∈ frontier, _distance_to_frontier table frontier position
          = _distance table (some p) (some c) MAX_DIST) ∧
      (∀ c ∈ frontier, _distance_to_frontier table frontier position
          ≤ _distance table (some p) (some c) MAX_DIST)) := by
  refine ⟨?_, ?_, ?_⟩
  · intro h; subst h; rfl
  · intro h; subst h; cases position <;> rfl
  · intro p hp hne
    subst hp
    cases frontier with
    | nil => exact absurd rfl hne
    | cons e es =>
        simp only [_distance_to_frontier]
        constructor
        · rcases foldl_min_cases (fun c => _distance table (some p) (some c) MAX_DIST) es
              (_distance table (some p) (some e) MAX_DIST) with h | ⟨x, hx, h⟩
          · exact ⟨e, List.mem_cons_self e es, h⟩
          · exact ⟨x, List.mem_cons_of_mem _ hx, h⟩
        · intro c hc
          rcases List.mem_cons.mp hc with h1 | h1
          · subst h1
            exact foldl_min_le_init (fun c => _distance table (some p) (some c) MAX_DIST) es _
          · exact foldl_min_le_mem (fun c => _distance table (some p) (some c) MAX_DIST) es _ c h1

/-- C7 witness: the characterization evaluated at a concrete table,
frontier and position. -/
theorem C7_witness :
    (some pos00 = some pos00) ∧ ([pos03] ≠ ([] : List Position)) ∧
    (∃ c ∈ [pos03], _distance_to_frontier manhattanTable [pos03] (some pos00)
        = _distance manhattanTable (some pos00) (some c) MAX_DIST) := by
  refine ⟨rfl, by decide, ?_⟩
  exact ((C7_distance_to_frontier_spec manhattanTable [pos03] (some pos00)).2.2 pos00 rfl
    (by decide)).1

/-- C5: after game_start the cached frontier is non-empty; build_frontier
returns the non-wall cells of the chosen frontier column in row order,
and the singleton of the initial position when that column has no open
cell. -/
theorem C5_frontier_nonempty (board : Board) (agent_index : Nat) (ip : Position) :
    (game_start board agent_index).frontier ≠ [] ∧
    (column_cells board (frontier_col board (some ip)) ≠ [] →
      _build_frontier board (some ip) = column_cells board (frontier_col board (some ip))) ∧
    (column_cells board (frontier_col board (some ip)) = [] →
      _build_frontier board (some ip) = [ip]) := by
  refine ⟨build_frontier_some_ne_nil board _, ?_, ?_⟩
  · intro h
    unfold _build_frontier
    simp [h]
  · intro h
    unfold _build_frontier
    simp [h]

/-- C5 witness: the frontier facts evaluated on a concrete board. -/
theorem C5_witness :
    (game_start sampleBoard10 0).frontier ≠ [] ∧
    column_cells sampleBoard10 (frontier_col sampleBoard10 (some pos00)) ≠ [] ∧
    _build_frontier sampleBoard10 (some pos00)
      = column_cells sampleBoard10 (frontier_col sampleBoard10 (some pos00)) := by
  have h := C5_frontier_nonempty sampleBoard10 0 pos00
  exact ⟨h.1, by decide, h.2.1 (by decide)⟩

/-- C6: the frontier column is width // 2 when the initial column is at
least width / 2 under true division and (width // 2) - 1 otherwise;
build_frontier enumerates cells at exactly that column; width 10 with
initial column 2 gives column 4 and initial column 7 gives column 5. -/
theorem C6_frontier_column (board : Board) (ip : Position) :
    ((ip.col : ℚ) ≥ (board.width : ℚ) / 2 →
        frontier_col board (some ip) = ((board.width / 2 : Nat) : Int)) ∧
    (¬ ((ip.col : ℚ) ≥ (board.width : ℚ) / 2) →
        frontier_col board (some ip) = ((board.width / 2 : Nat) : Int) - 1) ∧
    (∀ q ∈ column_cells board (frontier_col board (some ip)),
        q.col = frontier_col board (some ip)) ∧
    (board.width = 10 → ip.col = 2 → frontier_col board (some ip) = 4) ∧
    (board.width = 10 → ip.col = 7 → frontier_col board (some ip) = 5) := by
  refine ⟨?_, ?_, ?_, ?_, ?_⟩
  · intro h; simp [frontier_col, h]
  · intro h; simp [frontier_col, h]
  · intro q hq; exact column_cells_col board _ q hq
  · intro hw hc
    simp only [frontier_col, hw, hc]
    norm_num
  · intro hw hc
    simp only [frontier_col, hw, hc]
    norm_num

/-- C6 witness: a width-10 board with initial column 2 gives frontier
column 4. -/
theorem C6_witness :
    sampleBoard10.width = 10 ∧ pos02.col = 2 ∧
    frontier_col sampleBoard10 (some pos02) = 4 :=
  ⟨rfl, rfl, (C6_frontier_column sampleBoard10 pos02).2.2.2.1 rfl rfl⟩

/-- Claim C4: when the agent position is undefined, both extractors
return exactly the position-independent keys, and every
position-dependent key is absent from the mapping. -/
theorem C4_undefined_position_keys (table : DistTable) (frontier : List Position)
    (state : GameState) (action : Action) (h : state.agent_position = none) :
    ((AttackerAgent.compute_features table state action).map Prod.fst
        = ["reverse", "on_home_side", "stopped", "score", "bias"]) ∧
    ((GuardAgent.compute_features table frontier state action).map Prod.fst
        = ["reverse", "on_home_side", "stopped", "bias"]) ∧
    ((AttackerAgent.compute_features table state action).lookup "distance_to_food" = none) ∧
    ((AttackerAgent.compute_features table state action).lookup "distance_to_ghost" = none) ∧
    ((AttackerAgent.compute_features table state action).lookup "ghost_near" = none) ∧
    ((GuardAgent.compute_features table frontier state action).lookup "num_invaders" = none) ∧
    ((GuardAgent.compute_features table frontier state action).lookup "distance_to_invader" = none) ∧
    ((GuardAgent.compute_features table frontier state action).lookup "frontier_distance" = none) := by
  by_cases hl : state.agent_actions.length > 1 <;>
    simp [AttackerAgent.compute_features, GuardAgent.compute_features, FeatureDict.set,
      h, hl, List.lookup]

/-- C4 witness: the key facts evaluated at a concrete state with an
undefined position. -/
theorem C4_witness :
    stateNoPos.agent_position = none ∧
    ((AttackerAgent.compute_features manhattanTable stateNoPos Action.STOP).map Prod.fst
        = ["reverse", "on_home_side", "stopped", "score", "bias"]) :=
  ⟨rfl, (C4_undefined_position_keys manhattanTable [] stateNoPos Action.STOP rfl).1⟩

/-- Claim C9: every key that can appear in a feature vector produced by
a role is present in that role's weight mapping. -/
theorem C9_feature_keys_in_weights (table : DistTable) (frontier : List Position)
    (state : GameState) (action : Action) :
    (∀ k ∈ (AttackerAgent.compute_features table state action).map Prod.fst,
        k ∈ attacker_weights.map Prod.fst) ∧
    (∀ k ∈ (GuardAgent.compute_features table frontier state action).map Prod.fst,
        k ∈ guard_weights.map Prod.fst) := by
  constructor
  · intro k hk
    rcases hs : state.agent_position with _ | p <;>
      by_cases hl : state.agent_actions.length > 1 <;>
      by_cases hf : state.food.length > 0 <;>
      simp [AttackerAgent.compute_features, FeatureDict.set, attacker_weights,
        hs, hl, hf] at hk ⊢ <;>
      tauto
  · intro k hk
    rcases hs : state.agent_position with _ | p <;>
      by_cases hl : state.agent_actions.length > 1 <;>
      by_cases hi : state.invader_positions.length > 0 <;>
      simp [GuardAgent.compute_features, FeatureDict.set, guard_weights,
        hs, hl, hi] at hk ⊢ <;>
      tauto

/-- C9 witness: a concretely produced key is in the attacker weight
mapping. -/
theorem C9_witness :
    ("ghost_near" ∈ (AttackerAgent.compute_features manhattanTable stateAt00
        Action.STOP).map Prod.fst) ∧
    ("ghost_near" ∈ attacker_weights.map Prod.fst) := by
  constructor
  · decide
  · exact (C9_feature_keys_in_weights manhattanTable [] stateAt00 Action.STOP).1
      "ghost_near" (by decide)

/-- Claim C1: ghost_near is 1.0 exactly when the uncapped closest
non-scared-opponent distance (default MAX_DIST) is at most 3.0. -/
theorem C1_ghost_near_uncapped (table : DistTable) (state : GameState) (action : Action)
    (p : Position) (h : state.agent_position = some p) :
    ((AttackerAgent.compute_features table state action).lookup "ghost_near"
        = some (boolToFloat (decide (_closest_distance table (some p)
            state.nonscared_opponent_positions MAX_DIST ≤ 3)))) ∧
    (((AttackerAgent.compute_features table state action).lookup "ghost_near" = some 1)
        ↔ _closest_distance table (some p) state.nonscared_opponent_positions MAX_DIST ≤ 3) := by
  have hmain : (AttackerAgent.compute_features table state action).lookup "ghost_near"
      = some (boolToFloat (decide (_closest_distance table (some p)
          state.nonscared_opponent_positions MAX_DIST ≤ 3))) := by
    by_cases hl : state.agent_actions.length > 1 <;>
      by_cases hf : state.food.length > 0 <;>
      simp [AttackerAgent.compute_features, FeatureDict.set, h, hl, hf, List.lookup]
  refine ⟨hmain, ?_⟩
  rw [hmain]
  by_cases hd : _closest_distance table (some p) state.nonscared_opponent_positions MAX_DIST ≤ 3 <;>
    simp [hd, boolToFloat]

/-- C1 witness: at a concrete state with a ghost at Manhattan distance
2, ghost_near evaluates to 1. -/
theorem C1_witness :
    stateAt00.agent_position = some pos00 ∧
    ((AttackerAgent.compute_features manhattanTable stateAt00 Action.STOP).lookup "ghost_near"
        = some 1) := by
  refine ⟨rfl, ?_⟩
  apply (C1_ghost_near_uncapped manhattanTable stateAt00 Action.STOP pos00 rfl).2.mpr
  decide

/-- Claim C2: the guard's pursuit features are mutually exclusive: with
at least one invader visible, frontier_distance is 0.0 and
distance_to_invader is the closest invader distance; with none,
distance_to_invader is 0.0 and frontier_distance is the distance to the
nearest frontier cell. -/
theorem C2_guard_pursuit_exclusion (table : DistTable) (frontier : List Position)
    (state : GameState) (action : Action) (p : Position)
    (h : state.agent_position = some p) :
    ((GuardAgent.compute_features table frontier state action).lookup "num_invaders"
        = some ((state.invader_positions.length : ℚ))) ∧
    (state.invader_positions.length > 0 →
      (GuardAgent.compute_features table frontier state action).lookup "frontier_distance"
          = some 0 ∧
      (GuardAgent.compute_features table frontier state action).lookup "distance_to_invader"
          = some (_closest_distance table (some p) state.invader_positions MAX_DIST)) ∧
    (state.invader_positions.length = 0 →
      (GuardAgent.compute_features table frontier state action).lookup "distance_to_invader"
          = some 0 ∧
      (GuardAgent.compute_features table frontier state action).lookup "frontier_distance"
          = some (_distance_to_frontier table frontier (some p))) := by
  refine ⟨?_, ?_, ?_⟩
  · by_cases hl : state.agent_actions.length > 1 <;>
      by_cases hi : state.invader_positions.length > 0 <;>
      simp [GuardAgent.compute_features, FeatureDict.set, h, hl, hi, List.lookup]
  · intro hi
    by_cases hl : state.agent_actions.length > 1 <;>
      simp [GuardAgent.compute_features, FeatureDict.set, h, hl, hi, List.lookup]
  · intro hi0
    have hi : ¬ state.invader_positions.length > 0 := by omega
    by_cases hl : state.agent_actions.length > 1 <;>
      simp [GuardAgent.compute_features, FeatureDict.set, h, hl, hi, List.lookup]

/-- C2 witness: a concrete state with one invader gives
frontier_distance 0. -/
theorem C2_witness :
    stateAt00.agent_position = some pos00 ∧
    stateAt00.invader_positions.length > 0 ∧
    ((GuardAgent.compute_features manhattanTable [] stateAt00 Action.STOP).lookup
        "frontier_distance" = some 0) := by
  refine ⟨rfl, by decide, ?_⟩
  exact ((C2_guard_pursuit_exclusion manhattanTable [] stateAt00 Action.STOP pos00 rfl).2.1
    (by decide)).1

/-- The concrete Manhattan table only stores non-negative distances. -/
theorem manhattanTable_nonneg : ∀ s e q, manhattanTable s e = some q → 0 ≤ q := by
  intro s e q hq
  simp only [manhattanTable, Option.some.injEq] at hq
  rw [← hq]
  exact_mod_cast Nat.zero_le _

/-- Claim C3: with a defined position and non-negative table entries,
distance_to_food lies in [0, 20] when food is visible, equals 0.0 when
no food is visible, and a closest-food distance of 25 is capped to
exactly 20.0. -/
theorem C3_food_distance_bounds (table : DistTable) (state : GameState) (action : Action)
    (p : Position) (h : state.agent_position = some p)
    (hnn : ∀ s e q, table s e = some q → 0 ≤ q) :
    (state.food ≠ [] →
      ∃ v, (AttackerAgent.compute_features table state action).lookup "distance_to_food"
          = some v ∧ 0 ≤ v ∧ v ≤ 20) ∧
    (state.food = [] →
      (AttackerAgent.compute_features table state action).lookup "distance_to_food"
        = some 0) ∧
    (_closest_distance table (some p) state.food MAX_DIST = 25 →
      (AttackerAgent.compute_features table state action).lookup "distance_to_food"
        = some 20) := by
  have hlook : state.food.length > 0 →
      (AttackerAgent.compute_features table state action).lookup "distance_to_food"
        = some (min (_closest_distance table (some p) state.food MAX_DIST) 20) := by
    intro hf
    by_cases hl : state.agent_actions.length > 1 <;>
      simp [AttackerAgent.compute_features, FeatureDict.set, h, hl, hf, List.lookup]
  refine ⟨?_, ?_, ?_⟩
  · intro hne
    have hf : state.food.length > 0 := List.length_pos.mpr hne
    refine ⟨min (_closest_distance table (some p) state.food MAX_DIST) 20, hlook hf, ?_, ?_⟩
    · exact le_min (closest_distance_nonneg table p state.food MAX_DIST
        (by norm_num [MAX_DIST]) hnn) (by norm_num)
    · exact min_le_right _ _
  · intro hnil
    have hf : ¬ state.food.length > 0 := by simp [hnil]
    by_cases hl : state.agent_actions.length > 1 <;>
      simp [AttackerAgent.compute_features, FeatureDict.set, h, hl, hf, List.lookup]
  · intro h25
    rcases hfe : state.food with _ | ⟨fd, fds⟩
    · rw [hfe] at h25
      have : _closest_distance table (some p) [] MAX_DIST = 9999 := rfl
      rw [this] at h25
      norm_num at h25
    · have hf : state.food.length > 0 := by simp [hfe]
      rw [hlook hf, h25]
      norm_num

/-- C3 witness: at a concrete state with one food item the feature is in
range. -/
theorem C3_witness :
    stateAt00.agent_position = some pos00 ∧ stateAt00.food ≠ [] ∧
    ∃ v, (AttackerAgent.compute_features manhattanTable stateAt00 Action.STOP).lookup
        "distance_to_food" = some v ∧ 0 ≤ v ∧ v ≤ 20 := by
  refine ⟨rfl, by decide, ?_⟩
  exact (C3_food_distance_bounds manhattanTable stateAt00 Action.STOP pos00 rfl
    manhattanTable_nonneg).1 (by decide)

/-- Claim C10: with a defined position and no visible non-scared
opponent, distance_to_ghost equals the 12.0 cap and ghost_near equals
0.0. -/
theorem C10_unseen_ghost_at_cap (table : DistTable) (state : GameState) (action : Action)
    (p : Position) (h : state.agent_position = some p)
    (hg : state.nonscared_opponent_positions = []) :
    ((AttackerAgent.compute_features table state action).lookup "distance_to_ghost"
        = some 12) ∧
    ((AttackerAgent.compute_features table state action).lookup "ghost_near" = some 0) := by
  have hcl : _closest_distance table (some p) state.nonscared_opponent_positions MAX_DIST
      = 9999 := by rw [hg]; rfl
  by_cases hl : state.agent_actions.length > 1 <;>
    by_cases hf : state.food.length > 0 <;>
    simp [AttackerAgent.compute_features, FeatureDict.set, h, hl, hf, hcl, List.lookup,
      boolToFloat] <;>
    norm_num

/-- C10 witness: the cap facts evaluated at a concrete state with no
visible opponent. -/
theorem C10_witness :
    stateAt00Empty.agent_position = some pos00 ∧
    stateAt00Empty.nonscared_opponent_positions = [] ∧
    ((AttackerAgent.compute_features manhattanTable stateAt00Empty Action.STOP).lookup
        "distance_to_ghost" = some 12) :=
  ⟨rfl, rfl, (C10_unseen_ghost_at_cap manhattanTable stateAt00Empty Action.STOP pos00
    rfl rfl).1⟩

end Capture
